import Mathlib

/-!
Verification development for the `chatkeutelegolang` Telegram expense-ledger
bot (Go).  The repository holds successive iterations of the same program;
the authoritative iteration is the second document in `src/main.go`
(the one with the edit state machine, reminder scheduler and callback
handler).  The first document in `src/main.go` and `src/unnamed/part_001`
are earlier iterations; `src/unnamed/part_000` is the oldest iteration,
whose `normalizeNominal` differs from the final one.

The Go string and integer primitives used by the bot are embedded below
over `List Char` / `String` / `Int`:

* `goReplaceAll`   embeds `strings.ReplaceAll`
* `goContains`     embeds `strings.Contains`
* `goSplit`        embeds `strings.Split` (single-character separator)
* `goTrimSpace`    embeds `strings.TrimSpace` (ASCII whitespace)
* `goStartsWith`   embeds `strings.HasPrefix`
* `goTrimLead`     embeds `strings.TrimPrefix`
* `goToLower`      embeds `strings.ToLower` (ASCII range, via `Char.toLower`;
                   the bot only ever distinguishes the ASCII letters
                   `k`, `j`, `t`, `r`, `b`, digits and punctuation, so the
                   ASCII model is adequate for every property proved here)
* `goAtoi`         embeds `strconv.Atoi` (optional sign, all-digit body,
                   64-bit signed range check; `none` models `err != nil`)

Machine integers are modelled as `Int`/`Nat`; the only place where the Go
`int` width is observable in the verified properties is `strconv.Atoi`'s
range check, which is embedded explicitly.

Recursion that is not structural in the Go source is written with an
explicit fuel argument (always instantiated with an adequate bound at the
wrapper), so that every definition reduces by `decide`/`rfl`.
-/

namespace KeuBot

/-- One step domain for `goReplaceAll`: replaces, left to right, each
non-overlapping occurrence of `old` (non-empty) by `new`, mirroring Go's
`strings.Replace(s, old, new, -1)` main loop.  `fuel` bounds the recursion;
`goReplaceAll` supplies `s.length`, which is enough because each step
consumes at least one element of `s`. -/
def goReplaceAllGo (old new : List Char) : Nat → List Char → List Char
  | 0, s => s
  | _ + 1, [] => []
  | fuel + 1, c :: rest =>
    if old.isPrefixOf (c :: rest) then
      new ++ goReplaceAllGo old new fuel ((c :: rest).drop old.length)
    else
      c :: goReplaceAllGo old new fuel rest

/-- Embeds Go `strings.ReplaceAll(s, old, new)`.  For empty `old`, Go
inserts `new` before every character and at the start, which the bot never
relies on; it is embedded faithfully anyway. -/
def goReplaceAll (s old new : List Char) : List Char :=
  match old with
  | [] => new ++ s.flatMap (fun c => c :: new)
  | _ :: _ => goReplaceAllGo old new s.length s

/-- Embeds Go `strings.Contains(s, sub)`. -/
def goContains (s sub : List Char) : Bool :=
  match s with
  | [] => sub.isEmpty
  | _ :: rest => sub.isPrefixOf s || goContains rest sub

/-- Digit test used by the `strconv.Atoi` embedding ('0'..'9'). -/
def goIsDigit (c : Char) : Bool :=
  48 ≤ c.toNat && c.toNat ≤ 57

/-- Accumulating decimal parser over an all-digit body; any non-digit
aborts with `none`, as `strconv.Atoi` fails on the first bad byte. -/
def parseDigitsAux (acc : Nat) : List Char → Option Nat
  | [] => some acc
  | c :: cs =>
    if goIsDigit c then parseDigitsAux (acc * 10 + (c.toNat - 48)) cs
    else none

/-- The digit part of `strconv.Atoi`: non-empty all-digit body, with the
signed 64-bit range check (`ErrRange` is an error, and `normalizeNominal`
treats every error alike). -/
def goAtoiDigits (s : List Char) (neg : Bool) : Option Int :=
  match s with
  | [] => none
  | _ :: _ =>
    match parseDigitsAux 0 s with
    | none => none
    | some n =>
      if neg then
        if n ≤ 2 ^ 63 then some (-(n : Int)) else none
      else
        if n ≤ 2 ^ 63 - 1 then some (n : Int) else none

/-- Embeds Go `strconv.Atoi`: optional `+`/`-` sign, then a non-empty
all-digit body; `none` models a non-nil error. -/
def goAtoi (s : List Char) : Option Int :=
  match s with
  | [] => none
  | c :: rest =>
    if c = '+' then goAtoiDigits rest false
    else if c = '-' then goAtoiDigits rest true
    else goAtoiDigits s false

/-- Embeds Go `strings.ToLower` on the ASCII range. -/
def goToLower (s : List Char) : List Char :=
  s.map Char.toLower

/-- The final iteration's nominal parser, `normalizeNominal` in
`src/main.go` (second document, lines 818-846; identical text also at
lines 177-205 and in `src/unnamed/part_001`):
lower-case, strip spaces, strip dots, then branch on the first matching
suffix in the order `jt` (×1000000), `rb` (×1000), `k` (×1000), else plain
`Atoi`; any `Atoi` error yields 0. -/
def normalizeNominal (nominal : String) : Int :=
  let n0 := goToLower (goReplaceAll nominal.data [' '] [])
  let n1 := goReplaceAll n0 ['.'] []
  if goContains n1 ['j', 't'] then
    match goAtoi (goReplaceAll n1 ['j', 't'] []) with
    | some r => r * 1000000
    | none => 0
  else if goContains n1 ['r', 'b'] then
    match goAtoi (goReplaceAll n1 ['r', 'b'] []) with
    | some r => r * 1000
    | none => 0
  else if goContains n1 ['k'] then
    match goAtoi (goReplaceAll n1 ['k'] []) with
    | some r => r * 1000
    | none => 0
  else
    match goAtoi n1 with
    | some r => r
    | none => 0

/-- The literal string `"[^0-9kjt]"` that the part_000 iteration passes to
`strings.ReplaceAll` (a leftover regex pattern, treated by Go as a plain
substring). -/
def leftoverPattern : List Char :=
  ['[', '^', '0', '-', '9', 'k', 'j', 't', ']']

/-- The oldest iteration's nominal parser, `normalizeNominal` in
`src/unnamed/part_000` lines 210-246: removes literal occurrences of
`"[^0-9kjt]"`, lower-cases, strips spaces (no dot stripping), then
branches in the order `k` (×1000), `jt` (×1000000), `rb` (×1000), else
plain `Atoi`; any `Atoi` error yields 0.  (In that iteration the
multiplication is guarded by `err == nil`, which has the same result
as multiplying unconditionally, because on error 0 is returned.) -/
def normalizeNominalPart0 (nominal : String) : Int :=
  let n0 := goToLower (goReplaceAll nominal.data leftoverPattern [])
  let n1 := goReplaceAll n0 [' '] []
  if goContains n1 ['k'] then
    match goAtoi (goReplaceAll n1 ['k'] []) with
    | some r => r * 1000
    | none => 0
  else if goContains n1 ['j', 't'] then
    match goAtoi (goReplaceAll n1 ['j', 't'] []) with
    | some r => r * 1000000
    | none => 0
  else if goContains n1 ['r', 'b'] then
    match goAtoi (goReplaceAll n1 ['r', 'b'] []) with
    | some r => r * 1000
    | none => 0
  else
    match goAtoi n1 with
    | some r => r
    | none => 0

/-! ### `strconv.Itoa` and `formatRupiah` -/

/-- Decimal digit character, as produced by `strconv.Itoa`. -/
def digitChar (k : Nat) : Char :=
  match k with
  | 0 => '0' | 1 => '1' | 2 => '2' | 3 => '3' | 4 => '4'
  | 5 => '5' | 6 => '6' | 7 => '7' | 8 => '8' | _ => '9'

/-- Fuel-bounded decimal printing of a natural number (most significant
digit first); `natToDigits` supplies adequate fuel. -/
def natToDigitsGo : Nat → Nat → List Char
  | 0, _ => []
  | fuel + 1, n =>
    if n < 10 then [digitChar n]
    else natToDigitsGo fuel (n / 10) ++ [digitChar (n % 10)]

/-- Decimal representation of a natural number, as `strconv.Itoa` prints
non-negative values (no leading zeros, `"0"` for zero). -/
def natToDigits (n : Nat) : List Char := natToDigitsGo (n + 1) n

/-- Embeds Go `strconv.Itoa` over the `Int` model of Go `int`. -/
def intToDigits (n : Int) : List Char :=
  if n < 0 then '-' :: natToDigits (-n).toNat else natToDigits n.toNat

/-- The character-emitting loop of `formatRupiah` (`src/main.go` lines
1085-1090): before the character at index `i` it inserts a dot whenever
`(length-i) % 3 == 0 && i != 0`. -/
def formatRupiahAux (length : Nat) : Nat → List Char → List Char
  | _, [] => []
  | i, c :: rest =>
    (if (length - i) % 3 == 0 && i != 0 then ['.', c] else [c]) ++
      formatRupiahAux length (i + 1) rest

/-- `formatRupiah` from `src/main.go` lines 1080-1093: decimal digits of
the amount with a dot inserted every three digits (from the right). -/
def formatRupiah (nominal : Int) : String :=
  let str := intToDigits nominal
  String.mk (formatRupiahAux str.length 0 str)

/-! ### Time model

Instants are seconds on a single integer timeline with epoch
1970-01-01 00:00:00 (a Thursday).  The Go code mixes `time.Now()` (local)
with `time.Parse` (UTC); the model places both on one timeline, which is
exact for a UTC host and is the reading most favourable to the spec.
`AddDate(0, 0, n)` is `+ n*86400` (no DST in the model) and
`time.Parse("02-01-2006", s)` yields midnight of the parsed civil date.
`/` and `%` on `Int` are Euclidean (floor division for the positive
divisors used here), matching Go's calendar computations. -/

/-- Civil day (days since 1970-01-01) containing an instant. -/
def dayOfInstant (t : Int) : Int := t / 86400

/-- Go `time.Weekday()`: Sunday = 0.  1970-01-01 was a Thursday (= 4). -/
def weekdayOf (t : Int) : Int := (t / 86400 + 4) % 7

/-- Go `time.Hour()`: hour of day, 0..23. -/
def hourOf (t : Int) : Int := t / 3600 % 24

def isLeapYear (y : Int) : Bool :=
  (y % 4 == 0 && y % 100 != 0) || y % 400 == 0

def daysInMonth (y m : Int) : Int :=
  if m = 2 then (if isLeapYear y then 29 else 28)
  else if m = 4 ∨ m = 6 ∨ m = 9 ∨ m = 11 then 30
  else 31

/-- Days since 1970-01-01 of a civil date (proleptic Gregorian). -/
def daysFromCivil (y m d : Int) : Int :=
  let y2 := if m ≤ 2 then y - 1 else y
  let era := (if 0 ≤ y2 then y2 else y2 - 399) / 400
  let yoe := y2 - era * 400
  let mp := (m + 9) % 12
  let doy := (153 * mp + 2) / 5 + d - 1
  let doe := yoe * 365 + yoe / 4 - yoe / 100 + doy
  era * 146097 + doe - 719468

/-- Civil date (year, month, day) of a day count since 1970-01-01. -/
def civilFromDays (z : Int) : Int × Int × Int :=
  let z2 := z + 719468
  let era := (if 0 ≤ z2 then z2 else z2 - 146096) / 146097
  let doe := z2 - era * 146097
  let yoe := (doe - doe / 1460 + doe / 36524 - doe / 146096) / 365
  let y := yoe + era * 400
  let doy := doe - (365 * yoe + yoe / 4 - yoe / 100)
  let mp := (5 * doy + 2) / 153
  let d := doy - (153 * mp + 2) / 5 + 1
  let m := if mp < 10 then mp + 3 else mp - 9
  (if m ≤ 2 then y + 1 else y, m, d)

/-- Go `time.Day()`: day of month of an instant. -/
def dayOfMonthOf (t : Int) : Int := (civilFromDays (t / 86400)).2.2

/-- Embeds Go `time.Parse("02-01-2006", s)`: exactly `DD-MM-YYYY` with
zero-padded two-digit day and month and a four-digit year, range-checked
(month 1..12, day 1..days-in-month), result reported as the parsed civil
day count (the parsed instant is midnight of that day). -/
def parseDateDDMMYYYY (s : String) : Option Int :=
  match s.data with
  | [d1, d2, s1, m1, m2, s2, y1, y2, y3, y4] =>
    if s1 = '-' ∧ s2 = '-' ∧ goIsDigit d1 ∧ goIsDigit d2 ∧ goIsDigit m1 ∧
        goIsDigit m2 ∧ goIsDigit y1 ∧ goIsDigit y2 ∧ goIsDigit y3 ∧
        goIsDigit y4 then
      let dd : Int := (d1.toNat - 48) * 10 + (d2.toNat - 48)
      let mm : Int := (m1.toNat - 48) * 10 + (m2.toNat - 48)
      let yyyy : Int := ((y1.toNat - 48) * 1000 + (y2.toNat - 48) * 100 +
        (y3.toNat - 48) * 10 + (y4.toNat - 48) : Nat)
      if 1 ≤ mm ∧ mm ≤ 12 ∧ 1 ≤ dd ∧ dd ≤ daysInMonth yyyy mm then
        some (daysFromCivil yyyy mm dd)
      else none
    else none
  | _ => none

/-- Two-digit zero-padded rendering used by Go date formatting. -/
def pad2 (n : Int) : String :=
  if n < 10 then "0" ++ toString n else toString n

/-- Four-digit zero-padded year rendering used by Go date formatting. -/
def pad4 (n : Int) : String :=
  if n < 10 then "000" ++ toString n
  else if n < 100 then "00" ++ toString n
  else if n < 1000 then "0" ++ toString n
  else toString n

/-- Embeds Go `t.Format("02-01-2006")` (the ledger's date column). -/
def formatDateDDMMYYYY (t : Int) : String :=
  let c := civilFromDays (t / 86400)
  pad2 c.2.2 ++ "-" ++ pad2 c.2.1 ++ "-" ++ pad4 c.1

/-- Embeds Go `t.Format("2006-01-02")` (the preferences sheet's
`LastReminderDate` column). -/
def formatDateISO (t : Int) : String :=
  let c := civilFromDays (t / 86400)
  pad4 c.1 ++ "-" ++ pad2 c.2.1 ++ "-" ++ pad2 c.2.2

/-! ### Ledger store model

The Sheets backend is the spec's `LedgerStore` collaborator.  A cell value
arrives either as text or as a number (`interface{}` holding `string` or
`float64`); integral numeric cells are modelled as `Cell.num : Int`.
A `Values.Get` response is `Option (List (List Cell))`: `none` models a
non-nil backend error, `some values` the returned rows (rows are listed up
to the last non-empty one; the model assumes no trailing empty rows).
`fmt.Sprintf("%v", cell)` is `cellText` (Go prints an integral `float64`
without a decimal point). -/

inductive Cell where
  | str (s : String)
  | num (n : Int)
deriving DecidableEq

/-- `fmt.Sprintf("%v", v)` on a cell value. -/
def cellText : Cell → String
  | .str s => s
  | .num n => toString n

/-- Column `i` (0-based) of the sheet, as the backend returns a
single-column range: one (possibly empty) row array per row. -/
def colRange (sheet : List (List Cell)) (i : Nat) : List (List Cell) :=
  sheet.map (fun r => (r.drop i).take 1)

/-- `getSummary` from `src/main.go` lines 848-868: sums column C over all
returned rows (header included); string cells that fail `Atoi` are
skipped; any backend error yields total 0. -/
def getSummary (resp : Option (List (List Cell))) : Int :=
  match resp with
  | Option.none => 0
  | some values =>
    values.foldl (fun total row =>
      match row with
      | [] => total
      | cell :: _ =>
        match cell with
        | .str s =>
          match goAtoi s.data with
          | some val => total + val
          | Option.none => total
        | .num v => total + v) 0

/-- The `/summary` reply built by `handleUpdate` (`src/main.go` lines
664-668). -/
def summaryReply (resp : Option (List (List Cell))) : String :=
  "📊 Total pengeluaran saat ini: Rp. " ++ toString (getSummary resp)

/-- `getLastEntry` from `src/main.go` lines 870-892. -/
def getLastEntry (resp : Option (List (List Cell))) : Except String String :=
  match resp with
  | Option.none => .error "failed to get last entry"
  | some values =>
    if values.length < 2 then .ok "Belum ada data yang dimasukkan"
    else
      let lastRow := values.getD (values.length - 1) []
      if lastRow.length < 5 then .ok "Format data tidak valid"
      else
        .ok ("🕘 Data terakhir: #" ++ cellText (lastRow.getD 0 (Cell.str "")) ++
          " - 📅" ++ cellText (lastRow.getD 1 (Cell.str "")) ++
          " - 💰" ++ cellText (lastRow.getD 2 (Cell.str "")) ++
          " | 🎯" ++ cellText (lastRow.getD 3 (Cell.str "")) ++
          " | 📚" ++ cellText (lastRow.getD 4 (Cell.str "")))

/-- One summary line, `fmt.Sprintf("📅%s - 💰%v | 🎯%v | 📚%v", ...)`. -/
def entryLine (dateStr : String) (row : List Cell) : String :=
  "📅" ++ dateStr ++ " - 💰" ++ cellText (row.getD 2 (Cell.str "")) ++
    " | 🎯" ++ cellText (row.getD 3 (Cell.str "")) ++
    " | 📚" ++ cellText (row.getD 4 (Cell.str ""))

/-- The week window start computed by `getWeeklySummary`:
`weekStart := now.AddDate(0, 0, -int(now.Weekday()))`.  Note that this
instant carries `now`'s time of day. -/
def weekStartOf (now : Int) : Int := now - weekdayOf now * 86400

/-- The row-date filter of `getWeeklySummary` (`src/main.go` line 922):
`date.After(weekStart) && date.Before(weekEnd.AddDate(0, 0, 1))` with
`weekEnd := weekStart.AddDate(0, 0, 6)`; `date` is the parsed (midnight)
instant of the row's date cell. -/
def inWeeklyWindow (now date : Int) : Bool :=
  decide (weekStartOf now < date) &&
    decide (date < weekStartOf now + 6 * 86400 + 86400)

/-- `getWeeklySummary` from `src/main.go` lines 894-938. -/
def getWeeklySummary (now : Int) (resp : Option (List (List Cell))) :
    Except String String :=
  match resp with
  | Option.none => .error "failed to get weekly summary"
  | some values =>
    if values.length < 2 then .ok "Belum ada data yang dimasukkan"
    else
      let acc := (values.drop 1).foldl (fun acc row =>
        if row.length < 5 then acc
        else
          let dateStr := cellText (row.getD 1 (Cell.str ""))
          match parseDateDDMMYYYY dateStr with
          | Option.none => acc
          | some d =>
            if inWeeklyWindow now (d * 86400) then
              let nominal :=
                match goAtoi (cellText (row.getD 2 (Cell.str ""))).data with
                | some v => v
                | Option.none => 0
              (acc.1 + nominal, acc.2 ++ [entryLine dateStr row])
            else acc) ((0 : Int), ([] : List String))
      if acc.2.length = 0 then .ok "Tidak ada pengeluaran minggu ini"
      else
        .ok (acc.2.foldl (fun r e => r ++ e ++ "\n")
          ("📊 Pengeluaran Minggu Ini (Rp. " ++ toString acc.1 ++ "):\n\n"))

/-- The row-date filter of `getMonthlySummary` (`src/main.go` line 968):
`date.After(monthStart.AddDate(0,0,-1)) && date.Before(monthEnd.AddDate(0,0,1))`
with `monthStart` the first of the month at midnight and `monthEnd` the
last day of the month. -/
def inMonthlyWindow (now date : Int) : Bool :=
  let c := civilFromDays (now / 86400)
  let monthStart := daysFromCivil c.1 c.2.1 1 * 86400
  let nextFirst :=
    if c.2.1 = 12 then daysFromCivil (c.1 + 1) 1 1
    else daysFromCivil c.1 (c.2.1 + 1) 1
  let monthEnd := (nextFirst - 1) * 86400
  decide (monthStart - 86400 < date) && decide (date < monthEnd + 86400)

/-- `getMonthlySummary` from `src/main.go` lines 940-984. -/
def getMonthlySummary (now : Int) (resp : Option (List (List Cell))) :
    Except String String :=
  match resp with
  | Option.none => .error "failed to get monthly summary"
  | some values =>
    if values.length < 2 then .ok "Belum ada data yang dimasukkan"
    else
      let acc := (values.drop 1).foldl (fun acc row =>
        if row.length < 5 then acc
        else
          let dateStr := cellText (row.getD 1 (Cell.str ""))
          match parseDateDDMMYYYY dateStr with
          | Option.none => acc
          | some d =>
            if inMonthlyWindow now (d * 86400) then
              let nominal :=
                match goAtoi (cellText (row.getD 2 (Cell.str ""))).data with
                | some v => v
                | Option.none => 0
              (acc.1 + nominal, acc.2 ++ [entryLine dateStr row])
            else acc) ((0 : Int), ([] : List String))
      if acc.2.length = 0 then .ok "Tidak ada pengeluaran bulan ini"
      else
        .ok (acc.2.foldl (fun r e => r ++ e ++ "\n")
          ("📊 Pengeluaran Bulan Ini (Rp. " ++ toString acc.1 ++ "):\n\n"))

/-- `removeLastEntry` from `src/main.go` lines 986-1003, modelled at the
request level: on success it returns the 1-based row range
`A{r}:E{r}` handed to `Values.Clear`; before any clear request it requires
the `A:A` read to return at least 2 rows (header plus one entry), failing
with the empty-ledger error otherwise, in which case no clear request is
issued. -/
def removeLastEntry (resp : Option (List (List Cell))) :
    Except String (Nat × Nat) :=
  match resp with
  | Option.none => .error "failed to get row count"
  | some values =>
    if values.length < 2 then .error "no entries to remove"
    else .ok (values.length, values.length)

/-- Row-indexed worker for `applyClear` (index `i` is 0-based). -/
def applyClearGo (r1 r2 : Nat) : Nat → List (List Cell) → List (List Cell)
  | _, [] => []
  | i, row :: rest =>
    (if r1 ≤ i + 1 ∧ i + 1 ≤ r2 then [] else row) ::
      applyClearGo r1 r2 (i + 1) rest

/-- Effect of a `Values.Clear` on rows `rg.1 .. rg.2` (1-based): the
cells of those rows become empty; all other rows are untouched. -/
def applyClear (sheet : List (List Cell)) (rg : Nat × Nat) :
    List (List Cell) :=
  applyClearGo rg.1 rg.2 0 sheet

/-! ### Reminder preferences and scheduler -/

inductive ReminderType where
  | daily
  | weekly
  | monthly
  | none
deriving DecidableEq

/-- The string value of a `ReminderType` (the Go type is a string). -/
def rtString : ReminderType → String
  | .daily => "daily"
  | .weekly => "weekly"
  | .monthly => "monthly"
  | .none => "none"

/-- `UserPreference` from `src/main.go` lines 260-264; `LastReminder`
is an instant on the model timeline. -/
structure UserPreference where
  chatID : Int
  reminderType : ReminderType
  lastReminder : Int
deriving DecidableEq

/-- Go map read (`m[k]`, without the zero-value default). -/
def assocLookup {α : Type} : List (Int × α) → Int → Option α
  | [], _ => Option.none
  | (k, v) :: rest, key => if k = key then some v else assocLookup rest key

/-- Go map write (`m[k] = v`). -/
def assocInsert {α : Type} : List (Int × α) → Int → α → List (Int × α)
  | [], key, v => [(key, v)]
  | (k, w) :: rest, key, v =>
    if k = key then (k, v) :: rest else (k, w) :: assocInsert rest key v

/-- Go map delete (`delete(m, k)`). -/
def assocErase {α : Type} : List (Int × α) → Int → List (Int × α)
  | [], _ => []
  | (k, w) :: rest, key =>
    if k = key then rest else (k, w) :: assocErase rest key

/-- The due predicate of `startReminderScheduler` (`src/main.go` lines
456-467): `shouldSend` is initialised false and set by the switch; a
`None` preference is skipped (`continue`) before the switch, and the
switch has no `None` case, so `None` always yields false. -/
def shouldSendReminder (now : Int) (pref : UserPreference) : Bool :=
  match pref.reminderType with
  | .daily =>
    hourOf now == 20 && decide (24 * 3600 ≤ now - pref.lastReminder)
  | .weekly =>
    weekdayOf now == 0 && hourOf now == 20 &&
      decide (7 * 24 * 3600 ≤ now - pref.lastReminder)
  | .monthly =>
    dayOfMonthOf now == 1 && hourOf now == 20 &&
      decide (30 * 24 * 3600 ≤ now - pref.lastReminder)
  | .none => false

/-- The scheduler's ticker fires once per minute
(`time.NewTicker(time.Minute)`, `src/main.go` line 436): the `k`-th tick
after the first reference instant `start`. -/
def tickTime (start : Int) (k : Nat) : Int := start + 60 * (k : Int)

/-- One tick of the scheduler loop (`src/main.go` lines 448-475): the
preferences for which a reminder dispatch is spawned at instant `now`. -/
def schedulerTick (now : Int) (prefs : List (Int × UserPreference)) :
    List (Int × UserPreference) :=
  prefs.filter (fun entry =>
    !(entry.2.reminderType == ReminderType.none) &&
      shouldSendReminder now entry.2)

/-- The row written by `saveUserPreference` (`src/main.go` lines 352-356)
into `Preferences!A{r}:C{r}`: chat id, reminder-type string, and the
last-reminder instant serialised as a `YYYY-MM-DD` date. -/
def saveUserPreference (pref : UserPreference) : List Cell :=
  [Cell.num pref.chatID, Cell.str (rtString pref.reminderType),
    Cell.str (formatDateISO pref.lastReminder)]

/-- Outcome of one `sendReminder` call: the preference map afterwards,
the chat message sent (if any), and the row persisted to the preferences
sheet (if the save was reached and authorised). -/
structure SendOutcome where
  prefs : List (Int × UserPreference)
  sentMessage : Option String
  savedRow : Option (List Cell)
deriving DecidableEq

/-- `sendReminder` from `src/main.go` lines 364-398.  `summary` is the
result of the `get*Summary` call for the chosen period (`none` models its
error, on which the function logs and returns having changed nothing);
`authOk` models the re-authorisation before the save (on failure the
in-memory update stands but nothing is persisted).  The Go code reads
`userPreferences[chatID]` fresh; a missing entry would yield the map's
zero value, modelled by the `getD` default (the scheduler only dispatches
chats present in the map). -/
def sendReminder (now : Int) (summary : Option String) (authOk : Bool)
    (prefs : List (Int × UserPreference)) (chatID : Int)
    (reminderType : ReminderType) : SendOutcome :=
  match summary with
  | Option.none => ⟨prefs, Option.none, Option.none⟩
  | some s =>
    let msg := "🔔 Pengingat " ++ rtString reminderType ++ ":\n\n" ++ s
    let pref := (assocLookup prefs chatID).getD
      ⟨0, ReminderType.none, 0⟩
    let pref2 := { pref with lastReminder := now }
    let prefs2 := assocInsert prefs chatID pref2
    if authOk then ⟨prefs2, some msg, some (saveUserPreference pref2)⟩
    else ⟨prefs2, some msg, Option.none⟩

/-! ### Conversation router -/

/-- Embeds Go `strings.Split(s, sep)` for a one-character separator. -/
def goSplit (sep : Char) : List Char → List (List Char)
  | [] => [[]]
  | c :: rest =>
    match goSplit sep rest with
    | [] => [[]]
    | p :: ps => if c = sep then [] :: p :: ps else (c :: p) :: ps

/-- ASCII whitespace, as trimmed from the bot's comma-separated fields. -/
def goIsSpace (c : Char) : Bool :=
  c == ' ' || c == '\t' || c == '\n' || c == '\r'

/-- Embeds Go `strings.TrimSpace` (ASCII range). -/
def goTrimSpace (s : List Char) : List Char :=
  ((s.dropWhile goIsSpace).reverse.dropWhile goIsSpace).reverse

/-- Embeds Go `strings.HasPrefix(s, pre)`. -/
def goStartsWith (s pre : List Char) : Bool := pre.isPrefixOf s

/-- Embeds Go `strings.TrimPrefix(s, pre)`. -/
def goTrimLead (s pre : List Char) : List Char :=
  if pre.isPrefixOf s then s.drop pre.length else s

/-- `appendData` from `src/main.go` lines 798-816 over the healthy-backend
sheet model: the next position is the current row count plus one, and the
appended row is `{position, DD-MM-YYYY date, amount, category, note}`. -/
def appendData (now : Int) (sheet : List (List Cell)) (nominal : Int)
    (budget keterangan : String) : List (List Cell) :=
  let nextRow : Int := (sheet.length : Int) + 1
  sheet ++ [[Cell.num nextRow, Cell.str (formatDateDDMMYYYY now),
    Cell.num nominal, Cell.str budget, Cell.str keterangan]]

/-- The backend's answer to `Get("A{n}:E{n}")`: the 1-based row `n` when
it is in range and non-empty, otherwise no values (an out-of-range or
cleared row yields an empty response, a non-positive row an error; both
make `getEntryByNumber` fail, so they are identified here). -/
def fetchRow (sheet : List (List Cell)) (rowNumber : Int) :
    Option (List Cell) :=
  if 1 ≤ rowNumber ∧ rowNumber ≤ (sheet.length : Int) then
    match sheet.getD (rowNumber.toNat - 1) [] with
    | [] => Option.none
    | row => some row
  else Option.none

/-- `getEntryByNumber` from `src/main.go` lines 1018-1039. -/
def getEntryByNumber (sheet : List (List Cell)) (rowNumber : Int) :
    Except String String :=
  match fetchRow sheet rowNumber with
  | Option.none => .error "entry not found"
  | some row =>
    if row.length < 5 then .error "invalid entry format"
    else .ok (entryLine (cellText (row.getD 1 (Cell.str ""))) row)

/-- Writing row `n` (1-based) of the grid in place, extending the grid
with empty rows if `n` lies beyond it (the semantics of a Sheets
`Values.Update` on a single-row range). -/
def setSheetRow (sheet : List (List Cell)) (n : Nat) (row : List Cell) :
    List (List Cell) :=
  if n ≤ sheet.length then sheet.set (n - 1) row
  else sheet ++ List.replicate (n - 1 - sheet.length) [] ++ [row]

/-- `editEntry` from `src/main.go` lines 1005-1016: overwrites
`A{n}:E{n}` with `{n, today, amount, category, note}`; a non-positive row
number makes the backend reject the range (`none` models the error). -/
def editEntry (now : Int) (sheet : List (List Cell)) (rowNumber : Int)
    (nominal : Int) (budget keterangan : String) :
    Option (List (List Cell)) :=
  if rowNumber < 1 then Option.none
  else some (setSheetRow sheet rowNumber.toNat
    [Cell.num rowNumber, Cell.str (formatDateDDMMYYYY now),
      Cell.num nominal, Cell.str budget, Cell.str keterangan])

/-- The builder loop of `getLastFiveEntries` (`src/main.go` lines
1061-1075): rows shorter than five cells are skipped but still advance the
running index. -/
def histGo : Nat → List (List Cell) → String
  | _, [] => ""
  | i, row :: rest =>
    (if row.length < 5 then ""
     else
       let nominalInt :=
         match goAtoi (cellText (row.getD 2 (Cell.str ""))).data with
         | some v => v
         | Option.none => 0
       toString (i + 1) ++ ". Rp " ++ formatRupiah nominalInt ++ " - " ++
         cellText (row.getD 3 (Cell.str "")) ++ " - " ++
         cellText (row.getD 4 (Cell.str "")) ++ "\n") ++
      histGo (i + 1) rest

/-- `getLastFiveEntries` from `src/main.go` lines 1041-1078. -/
def getLastFiveEntries (resp : Option (List (List Cell))) :
    Except String String :=
  match resp with
  | Option.none => .error "failed to get entries"
  | some values =>
    if values.length < 2 then .ok "Belum ada data yang dimasukkan"
    else
      let startIdx := if values.length - 5 < 1 then 1 else values.length - 5
      .ok ("🧾 5 Transaksi Terakhir:\n\n" ++ histGo 0 (values.drop startIdx))

/-- A chat message (`update.Message`): chat identity and text. -/
structure Msg where
  chatId : Int
  text : String
deriving DecidableEq

/-- A callback query (`update.CallbackQuery`): chat identity and the
button's data token. -/
structure CallbackQ where
  chatId : Int
  cbData : String
deriving DecidableEq

/-- A Telegram update as the router sees it: at most one of a plain
message and a callback query is set. -/
structure Update where
  message : Option Msg
  callbackQuery : Option CallbackQ
deriving DecidableEq

/-- The router's mutable state: the ledger sheet behind the backend, and
the `editingState` map (`src/main.go` line 271) from chat id to the row
number being edited. -/
structure RouterState where
  sheet : List (List Cell)
  editingState : List (Int × Int)
deriving DecidableEq

/-- The result of routing one update: the sheet and editing state
afterwards, and the replies sent to the chat, in order. -/
structure RouterOutcome where
  sheet : List (List Cell)
  editingState : List (Int × Int)
  replies : List String
deriving DecidableEq

/-- The `/start` reply (`src/main.go` lines 602-615). -/
def startMessage : String :=
  "👋 Hai! Saya adalah bot pencatat keuangan.\n\n" ++
  "📝 Untuk mencatat pengeluaran, kirim dalam format:\n" ++
  "Nominal, Kategori, Keterangan\n" ++
  "Contoh: 10rb, Makanan, Makan Siang di Kantin\n\n" ++
  "📋 Perintah yang tersedia:\n" ++
  "/help - Tampilkan bantuan\n" ++
  "/summary - Tampilkan total pengeluaran\n" ++
  "/weekly - Tampilkan pengeluaran minggu ini\n" ++
  "/monthly - Tampilkan pengeluaran bulan ini\n" ++
  "/last - Tampilkan data terakhir\n" ++
  "/remove - Hapus entri terakhir\n" ++
  "/edit - Edit entri berdasarkan nomor\n" ++
  "/history - Tampilkan 5 transaksi terakhir\n" ++
  "/reminder - Atur pengingat harian/mingguan"

/-- The `/help` reply (`src/main.go` lines 620-637); its command list
documents `/edit <nomor>` as a supported command. -/
def helpMessage : String :=
  "📋 Cara menggunakan bot:\n\n" ++
  "1. Untuk mencatat pengeluaran:\n" ++
  "   Kirim dalam format: Nominal, Kategori, Keterangan\n" ++
  "   Contoh: 10rb, Makanan, Makan Siang di Kantin\n\n" ++
  "2. Perintah yang tersedia:\n" ++
  "   /start - Mulai bot\n" ++
  "   /help - Tampilkan bantuan ini\n" ++
  "   /summary - Tampilkan total pengeluaran\n" ++
  "   /weekly - Tampilkan pengeluaran minggu ini\n" ++
  "   /monthly - Tampilkan pengeluaran bulan ini\n" ++
  "   /last - Tampilkan data terakhir\n" ++
  "   /remove - Hapus entri terakhir\n" ++
  "   /edit <nomor> - Edit entri berdasarkan nomor\n" ++
  "   /history - Tampilkan 5 transaksi terakhir\n\n" ++
  "3. Format nominal:\n" ++
  "   - 10rb = 10.000\n" ++
  "   - 1jt = 1.000.000\n" ++
  "   - 100k = 100.000"

/-- The reply to a malformed message during an edit session
(`src/main.go` line 593). -/
def editFormatReminder : String :=
  "Format salah🙅🏻‍♂️. Gunakan: Nominal, Kategori, Keterangan\nContoh: 10rb, Makanan, Makan Siang di Kantin"

/-- The reply to an unrecognized command (`src/main.go` line 752). -/
def unknownCommandReply : String :=
  "❌ Perintah tidak dikenali. Gunakan /help untuk melihat daftar perintah yang tersedia"

/-- `handleUpdate` from `src/main.go` lines 561-781 (the final
iteration), over the healthy-backend sheet model (network reads succeed
and return the sheet's rows; the error replies for failed reads are
therefore not produced by the model).  The dead `/edit` guard
`text == "/edit " + text` at line 641 is embedded exactly as written. -/
def handleUpdate (now : Int) (st : RouterState) (update : Update) :
    RouterOutcome :=
  match update.message with
  | Option.none => ⟨st.sheet, st.editingState, []⟩
  | some msg =>
    let chatId := msg.chatId
    let text := msg.text
    match assocLookup st.editingState chatId with
    | some editingRow =>
      let parts := goSplit ',' text.data
      if parts.length = 3 then
        let nominalStr := goTrimSpace (parts.getD 0 [])
        let budget := String.mk (goTrimSpace (parts.getD 1 []))
        let keterangan := String.mk (goTrimSpace (parts.getD 2 []))
        let normalizedNominal := normalizeNominal (String.mk nominalStr)
        match editEntry now st.sheet editingRow normalizedNominal budget
          keterangan with
        | Option.none =>
          ⟨st.sheet, assocErase st.editingState chatId,
            ["❌ Gagal mengedit data."]⟩
        | some sheet2 =>
          let editedEntry :=
            match getEntryByNumber sheet2 editingRow with
            | .ok e => e
            | .error _ => ""
          ⟨sheet2, assocErase st.editingState chatId,
            ["✅ Data berhasil diedit:\n" ++ editedEntry]⟩
      else
        ⟨st.sheet, st.editingState, [editFormatReminder]⟩
    | Option.none =>
      if goStartsWith text.data ['/'] then
        if text = "/start" then
          ⟨st.sheet, st.editingState, [startMessage]⟩
        else if text = "/help" then
          ⟨st.sheet, st.editingState, [helpMessage]⟩
        else if text = "/edit " ++ text then
          let rowNumberStr := goTrimLead text.data "/edit ".data
          match goAtoi rowNumberStr with
          | Option.none =>
            ⟨st.sheet, st.editingState,
              ["❌ Nomor entri tidak valid. Gunakan format: /edit <nomor>"]⟩
          | some rowNumber =>
            match getEntryByNumber st.sheet rowNumber with
            | .error _ =>
              ⟨st.sheet, st.editingState, ["❌ Entri tidak ditemukan"]⟩
            | .ok entry =>
              ⟨st.sheet, assocInsert st.editingState chatId rowNumber,
                ["✏️ Edit entri #" ++ toString rowNumber ++ ":\n" ++ entry ++
                  "\n\nKirim data baru dalam format:\nNominal, Kategori, Keterangan\nContoh: 10rb, Makanan, Makan Siang di Kantin"]⟩
        else if text = "/summary" then
          ⟨st.sheet, st.editingState,
            [summaryReply (some (colRange st.sheet 2))]⟩
        else if text = "/weekly" then
          match getWeeklySummary now (some st.sheet) with
          | .error _ =>
            ⟨st.sheet, st.editingState,
              ["❌ Gagal mengambil data pengeluaran mingguan"]⟩
          | .ok s => ⟨st.sheet, st.editingState, [s]⟩
        else if text = "/monthly" then
          match getMonthlySummary now (some st.sheet) with
          | .error _ =>
            ⟨st.sheet, st.editingState,
              ["❌ Gagal mengambil data pengeluaran bulanan"]⟩
          | .ok s => ⟨st.sheet, st.editingState, [s]⟩
        else if text = "/last" then
          match getLastEntry (some st.sheet) with
          | .error _ =>
            ⟨st.sheet, st.editingState,
              ["❌ Gagal mengambil data terakhir"]⟩
          | .ok s => ⟨st.sheet, st.editingState, [s]⟩
        else if text = "/remove" then
          match getLastEntry (some st.sheet) with
          | .error _ =>
            ⟨st.sheet, st.editingState,
              ["❌ Gagal mengambil data terakhir"]⟩
          | .ok lastEntry =>
            match removeLastEntry (some (colRange st.sheet 0)) with
            | .error _ =>
              ⟨st.sheet, st.editingState,
                ["❌ Gagal menghapus data terakhir"]⟩
            | .ok rg =>
              ⟨applyClear st.sheet rg, st.editingState,
                ["✅ Data berhasil dihapus:\n" ++ lastEntry]⟩
        else if text = "/history" then
          match getLastFiveEntries (some st.sheet) with
          | .error _ =>
            ⟨st.sheet, st.editingState,
              ["❌ Gagal mengambil riwayat transaksi"]⟩
          | .ok s => ⟨st.sheet, st.editingState, [s]⟩
        else if text = "/reminder" then
          ⟨st.sheet, st.editingState, ["🔔 Pilih jenis pengingat:"]⟩
        else
          ⟨st.sheet, st.editingState, [unknownCommandReply]⟩
      else
        let parts := goSplit ',' text.data
        if parts.length = 3 then
          let nominalStr := goTrimSpace (parts.getD 0 [])
          let budget := String.mk (goTrimSpace (parts.getD 1 []))
          let keterangan := String.mk (goTrimSpace (parts.getD 2 []))
          let normalizedNominal := normalizeNominal (String.mk nominalStr)
          let sheet2 := appendData now st.sheet normalizedNominal budget
            keterangan
          let summary := getSummary (some (colRange sheet2 2))
          ⟨sheet2, st.editingState,
            ["✅Data berhasil ditambahkan ke Google Spreadsheet.\nKamu telah memasukkan:\n💰" ++
              toString normalizedNominal ++ "\n🎯" ++ budget ++ "\n📚" ++
              keterangan ++ "\n\nTotal Nominal: Rp. " ++ toString summary]⟩
        else
          ⟨st.sheet, st.editingState,
            ["Format salah🙅🏻‍♂️. Gunakan: Nominal, Kategori, Keterangan. \nContoh: 10rb, Makanan, Makan Siang di Kantin\n\nGunakan /help untuk melihat bantuan lengkap"]⟩

/-- The decoded token of a reminder callback, for the four tokens the
`/reminder` keyboard can produce (`src/main.go` lines 735-744).  Other
`reminder_*` strings would become arbitrary `ReminderType` string values
in Go; the keyboard never produces them and the model leaves them out. -/
def reminderTokenType (data : String) : Option ReminderType :=
  if data = "reminder_daily" then some ReminderType.daily
  else if data = "reminder_weekly" then some ReminderType.weekly
  else if data = "reminder_monthly" then some ReminderType.monthly
  else if data = "reminder_none" then some ReminderType.none
  else Option.none

/-- The per-period confirmation texts of `handleCallbackQuery`
(`src/main.go` lines 1117-1127). -/
def confirmationMessage : ReminderType → String
  | .daily => "✅ Pengingat harian diaktifkan. Kamu akan menerima ringkasan pengeluaran setiap hari."
  | .weekly => "✅ Pengingat mingguan diaktifkan. Kamu akan menerima ringkasan pengeluaran setiap minggu."
  | .monthly => "✅ Pengingat bulanan diaktifkan. Kamu akan menerima ringkasan pengeluaran setiap bulan."
  | .none => "✅ Pengingat dimatikan."

/-- Outcome of one `handleCallbackQuery` call: the preference map
afterwards, the persisted row (when the save succeeded), and the replies
sent. -/
structure CallbackOutcome where
  prefs : List (Int × UserPreference)
  savedRow : Option (List Cell)
  replies : List String
deriving DecidableEq

/-- `handleCallbackQuery` from `src/main.go` lines 1095-1131.  Note: no
caller of this function exists anywhere in the repository — `handleUpdate`
returns as soon as `update.Message == nil`, which is the case for every
callback-query update, so this code is unreachable in the running bot. -/
def handleCallbackQuery (now : Int) (saveOk : Bool)
    (prefs : List (Int × UserPreference)) (cb : CallbackQ) :
    CallbackOutcome :=
  match reminderTokenType cb.cbData with
  | some rtype =>
    let pref : UserPreference := ⟨cb.chatId, rtype, now⟩
    let prefs2 := assocInsert prefs cb.chatId pref
    if saveOk then
      ⟨prefs2, some (saveUserPreference pref), [confirmationMessage rtype]⟩
    else
      ⟨prefs2, Option.none, ["❌ Gagal menyimpan pengaturan pengingat"]⟩
  | Option.none => ⟨prefs, Option.none, []⟩

/-! ### Properties of the Go string primitives -/

theorem char_toNat_inj {c d : Char} (h : c.toNat = d.toNat) : c = d := by
  rw [← Char.ofNat_toNat c, h, Char.ofNat_toNat]

theorem toLower_toNat (c : Char) :
    (Char.toLower c).toNat =
      if 65 ≤ c.toNat ∧ c.toNat ≤ 90 then c.toNat + 32 else c.toNat := by
  unfold Char.toLower
  by_cases h : 65 ≤ c.toNat ∧ c.toNat ≤ 90
  · rw [if_pos h, if_pos h]
    show (Char.ofNat (c.toNat + 32)).toNat = c.toNat + 32
    unfold Char.ofNat
    rw [dif_pos (Or.inl (by omega))]
    rfl
  · rw [if_neg h, if_neg h]

/-- `Char.toLower` fixes every character that is not an ASCII letter,
and can only produce a non-letter character from itself. -/
theorem toLower_eq_iff (c t : Char)
    (ht : (t.toNat < 65 ∨ 90 < t.toNat) ∧ (t.toNat < 97 ∨ 122 < t.toNat)) :
    Char.toLower c = t ↔ c = t := by
  constructor
  · intro h
    have h2 := congrArg Char.toNat h
    rw [toLower_toNat] at h2
    split at h2
    · omega
    · exact char_toNat_inj h2
  · rintro rfl
    apply char_toNat_inj
    rw [toLower_toNat, if_neg (by omega)]

theorem toLower_eq_self_of_not_upper {c : Char}
    (h : ¬(65 ≤ c.toNat ∧ c.toNat ≤ 90)) : Char.toLower c = c := by
  apply char_toNat_inj
  rw [toLower_toNat, if_neg h]

theorem singleton_isPrefixOf (c x : Char) (rest : List Char) :
    [c].isPrefixOf (x :: rest) = (c == x) := by
  simp [List.isPrefixOf]

theorem goReplaceAllGo_singleton (c : Char) :
    ∀ (s : List Char) (fuel : Nat), s.length ≤ fuel →
      goReplaceAllGo [c] [] fuel s = s.filter (fun x => !(x == c)) := by
  intro s
  induction s with
  | nil => intro fuel _; cases fuel <;> rfl
  | cons x rest ih =>
    intro fuel hs
    cases fuel with
    | zero => simp at hs
    | succ fuel =>
      have hrest : rest.length ≤ fuel := by
        simpa using Nat.le_of_succ_le_succ hs
      show (if [c].isPrefixOf (x :: rest) then
              [] ++ goReplaceAllGo [c] [] fuel ((x :: rest).drop 1)
            else x :: goReplaceAllGo [c] [] fuel rest) = _
      rw [List.filter_cons]
      by_cases hx : c = x
      · subst hx
        rw [if_pos (by simp [singleton_isPrefixOf]), if_neg (by simp)]
        simp only [List.drop_succ_cons, List.drop_zero, List.nil_append]
        exact ih fuel hrest
      · rw [if_neg (by simp [singleton_isPrefixOf]; exact hx),
          if_pos (by simp; exact fun h => hx h.symm)]
        rw [ih fuel hrest]

theorem goReplaceAll_singleton (s : List Char) (c : Char) :
    goReplaceAll s [c] [] = s.filter (fun x => !(x == c)) :=
  goReplaceAllGo_singleton c s s.length (Nat.le_refl _)

theorem goContains_cons_false {s sub : List Char} {x : Char}
    (h : goContains (x :: s) sub = false) :
    sub.isPrefixOf (x :: s) = false ∧ goContains s sub = false := by
  simpa [goContains, Bool.or_eq_false_iff] using h

theorem goReplaceAllGo_of_not_contains (old new : List Char) :
    ∀ (fuel : Nat) (s : List Char), goContains s old = false →
      goReplaceAllGo old new fuel s = s := by
  intro fuel
  induction fuel with
  | zero => intro s _; rfl
  | succ n ih =>
    intro s hs
    match s with
    | [] => rfl
    | x :: rest =>
      obtain ⟨h1, h2⟩ := goContains_cons_false hs
      simp only [goReplaceAllGo, h1, Bool.false_eq_true, if_false]
      rw [ih rest h2]

theorem goReplaceAll_of_not_contains {s old : List Char} (new : List Char)
    (h : goContains s old = false) (hne : old ≠ []) :
    goReplaceAll s old new = s := by
  match old, hne with
  | o :: os, _ =>
    exact goReplaceAllGo_of_not_contains (o :: os) new s.length s h

theorem mem_goReplaceAllGo {c : Char} (old : List Char) (hno : c ∉ old) :
    ∀ (fuel : Nat) (s : List Char), c ∈ s →
      c ∈ goReplaceAllGo old [] fuel s := by
  intro fuel
  induction fuel with
  | zero => intro s h; exact h
  | succ n ih =>
    intro s hmem
    match s with
    | [] => cases hmem
    | x :: rest =>
      simp only [goReplaceAllGo]
      by_cases hp : old.isPrefixOf (x :: rest) = true
      · rw [if_pos hp]
        obtain ⟨t, ht⟩ := List.isPrefixOf_iff_prefix.mp hp
        have hd : (x :: rest).drop old.length = t := by
          rw [← ht, List.drop_left]
        rw [hd, List.nil_append]
        apply ih
        rw [← ht] at hmem
        rcases List.mem_append.mp hmem with h | h
        · exact absurd h hno
        · exact h
      · rw [if_neg hp]
        rcases List.mem_cons.mp hmem with h | h
        · exact h ▸ List.mem_cons_self _ _
        · exact List.mem_cons_of_mem _ (ih rest h)

theorem mem_goReplaceAll {c : Char} {s old : List Char}
    (hne : old ≠ []) (hmem : c ∈ s) (hno : c ∉ old) :
    c ∈ goReplaceAll s old [] := by
  match old, hne with
  | o :: os, _ => exact mem_goReplaceAllGo (o :: os) hno s.length s hmem

theorem goContains_head_mem {c : Char} {tl : List Char} :
    ∀ {s : List Char}, goContains s (c :: tl) = true → c ∈ s := by
  intro s
  induction s with
  | nil => intro h; simp [goContains, List.isEmpty] at h
  | cons x rest ih =>
    intro h
    simp only [goContains] at h
    rcases Bool.or_eq_true_iff.mp h with hp | hc
    · have h3 : c = x := by
        have := hp
        simp only [List.isPrefixOf, Bool.and_eq_true, beq_iff_eq] at this
        exact this.1
      exact h3 ▸ List.mem_cons_self _ _
    · exact List.mem_cons_of_mem _ (ih hc)

theorem goContains_singleton {c : Char} :
    ∀ {s : List Char}, goContains s [c] = true ↔ c ∈ s := by
  intro s
  induction s with
  | nil => simp [goContains, List.isEmpty]
  | cons x rest ih =>
    simp only [goContains, singleton_isPrefixOf, Bool.or_eq_true,
      beq_iff_eq, ih, List.mem_cons]

theorem parseDigitsAux_eq_none {c : Char} (hc : goIsDigit c = false) :
    ∀ (s : List Char) (acc : Nat), c ∈ s → parseDigitsAux acc s = none := by
  intro s
  induction s with
  | nil => intro acc h; cases h
  | cons x rest ih =>
    intro acc hmem
    by_cases hx : goIsDigit x = true
    · have hcx : c ≠ x := fun h => by rw [h, hx] at hc; cases hc
      have hr : c ∈ rest := by
        rcases List.mem_cons.mp hmem with h | h
        · exact absurd h hcx
        · exact h
      simp only [parseDigitsAux]
      rw [if_pos hx]
      exact ih _ hr
    · simp only [parseDigitsAux]
      rw [if_neg hx]

theorem goAtoiDigits_eq_none {c : Char} {s : List Char} (neg : Bool)
    (hc : goIsDigit c = false) (hmem : c ∈ s) :
    goAtoiDigits s neg = none := by
  match s, hmem with
  | x :: rest, hmem =>
    simp only [goAtoiDigits]
    rw [parseDigitsAux_eq_none hc _ _ hmem]

theorem goAtoi_eq_none {c : Char} {s : List Char}
    (hc : goIsDigit c = false) (hp : c ≠ '+') (hm : c ≠ '-')
    (hmem : c ∈ s) : goAtoi s = none := by
  match s, hmem with
  | x :: rest, hmem =>
    simp only [goAtoi]
    by_cases h1 : x = '+'
    · subst h1
      rw [if_pos rfl]
      have : c ∈ rest := by
        rcases List.mem_cons.mp hmem with h | h
        · exact absurd h hp
        · exact h
      exact goAtoiDigits_eq_none false hc this
    · rw [if_neg h1]
      by_cases h2 : x = '-'
      · subst h2
        rw [if_pos rfl]
        have : c ∈ rest := by
          rcases List.mem_cons.mp hmem with h | h
          · exact absurd h hm
          · exact h
        exact goAtoiDigits_eq_none true hc this
      · rw [if_neg h2]
        exact goAtoiDigits_eq_none false hc hmem

/-- Removing spaces commutes with ASCII lower-casing (lower-casing maps no
character to, or from, the space character). -/
theorem despace_toLower_comm (s : List Char) :
    (goToLower s).filter (fun c => !(c == ' ')) =
      goToLower (s.filter (fun c => !(c == ' '))) := by
  unfold goToLower
  rw [List.filter_map]
  congr 1
  apply List.filter_congr
  intro a _
  simp only [Function.comp]
  by_cases h : a = ' '
  · subst h
    rfl
  · have h1 : Char.toLower a ≠ ' ' :=
      fun hh => h ((toLower_eq_iff a ' ' (by decide)).mp hh)
    simp [h, h1]

example : normalizeNominal "10rb" = 10000 := by decide
example : normalizeNominal "1jt" = 1000000 := by decide
example : normalizeNominal "100k" = 100000 := by decide
example : normalizeNominal "abc" = 0 := by decide
example : normalizeNominal "1.5jt" = 15000000 := by decide
example : normalizeNominal "15jt" = 15000000 := by decide
example : normalizeNominalPart0 "1.5jt" = 0 := by decide
example : normalizeNominalPart0 "10rb" = 10000 := by decide
example : normalizeNominalPart0 "100k" = 100000 := by decide
example : normalizeNominalPart0 "1jt" = 1000000 := by decide

/-- C4: the nominal parser of the final iteration satisfies the pinned
test vectors: `parse("10rb") = 10000`, `parse("1jt") = 1000000`,
`parse("100k") = 100000`, `parse("abc") = 0`, and — because dots are
stripped before suffix detection — `parse("1.5jt") = parse("15jt") =
15000000`. -/
theorem c4_nominal_parser_vectors :
    normalizeNominal "10rb" = 10000 ∧
    normalizeNominal "1jt" = 1000000 ∧
    normalizeNominal "100k" = 100000 ∧
    normalizeNominal "abc" = 0 ∧
    normalizeNominal "1.5jt" = normalizeNominal "15jt" ∧
    normalizeNominal "15jt" = 15000000 := by
  refine ⟨by decide, by decide, by decide, by decide, by decide, by decide⟩

/-- C8 counterexample: the two iterations of the nominal parser are NOT
the same function.  On `"1.5jt"` the part_000 iteration (no dot
stripping) fails the integer parse and returns 0, while the final
iteration returns 15000000. -/
theorem c8_counterexample_dot_input :
    normalizeNominalPart0 "1.5jt" = 0 ∧ normalizeNominal "1.5jt" = 15000000 := by
  refine ⟨by decide, by decide⟩

/-- C8 (amended): the two iterations of the nominal parser agree on every
input that contains no dot and no occurrence of the literal substring
`"[^0-9kjt]"` (the leftover pattern that only the part_000 iteration
deletes).  On such inputs the differing treatment of dots is immaterial,
and the differing branch order (`k` first versus `jt` first) only matters
on inputs containing both a `k` and a `jt`/`rb` suffix, where both
iterations fail the integer parse and return 0. -/
theorem c8_amended_equiv_on_dotfree (s : String)
    (hdot : '.' ∉ s.data)
    (hlit : goContains s.data leftoverPattern = false) :
    normalizeNominalPart0 s = normalizeNominal s := by
  simp only [normalizeNominal, normalizeNominalPart0]
  rw [goReplaceAll_of_not_contains [] hlit (by decide)]
  rw [goReplaceAll_singleton (goToLower s.data) ' ']
  rw [goReplaceAll_singleton s.data ' ']
  rw [despace_toLower_comm]
  have hpdot : ∀ c ∈ goToLower (List.filter (fun x => !(x == ' ')) s.data),
      (!(c == '.')) = true := by
    intro c hcmem
    simp only [goToLower] at hcmem
    obtain ⟨c0, hc0mem, rfl⟩ := List.mem_map.mp hcmem
    have hmem0 : c0 ∈ s.data := (List.mem_filter.mp hc0mem).1
    have hne : c0 ≠ '.' := fun h => hdot (h ▸ hmem0)
    have hne2 : Char.toLower c0 ≠ '.' :=
      fun h => hne ((toLower_eq_iff c0 '.' (by decide)).mp h)
    simpa using hne2
  rw [goReplaceAll_singleton (goToLower (List.filter (fun x => !(x == ' ')) s.data)) '.']
  rw [List.filter_eq_self.mpr hpdot]
  set p := goToLower (List.filter (fun x => !(x == ' ')) s.data) with hp
  by_cases hjt : goContains p ['j', 't'] = true
  · by_cases hk : goContains p ['k'] = true
    · rw [if_pos hk, if_pos hjt]
      have hkmem : 'k' ∈ p := goContains_singleton.mp hk
      have hjmem : 'j' ∈ p := goContains_head_mem hjt
      have h1 : goAtoi (goReplaceAll p ['k'] []) = none :=
        goAtoi_eq_none (by decide) (by decide) (by decide)
          (mem_goReplaceAll (by decide) hjmem (by decide))
      have h2 : goAtoi (goReplaceAll p ['j', 't'] []) = none :=
        goAtoi_eq_none (by decide) (by decide) (by decide)
          (mem_goReplaceAll (by decide) hkmem (by decide))
      rw [h1, h2]
    · rw [if_neg hk, if_pos hjt, if_pos hjt]
  · by_cases hrb : goContains p ['r', 'b'] = true
    · by_cases hk : goContains p ['k'] = true
      · rw [if_pos hk, if_neg hjt, if_pos hrb]
        have hkmem : 'k' ∈ p := goContains_singleton.mp hk
        have hrmem : 'r' ∈ p := goContains_head_mem hrb
        have h1 : goAtoi (goReplaceAll p ['k'] []) = none :=
          goAtoi_eq_none (by decide) (by decide) (by decide)
            (mem_goReplaceAll (by decide) hrmem (by decide))
        have h2 : goAtoi (goReplaceAll p ['r', 'b'] []) = none :=
          goAtoi_eq_none (by decide) (by decide) (by decide)
            (mem_goReplaceAll (by decide) hkmem (by decide))
        rw [h1, h2]
      · rw [if_neg hk, if_neg hjt, if_pos hrb, if_neg hjt, if_pos hrb]
    · by_cases hk : goContains p ['k'] = true
      · rw [if_pos hk, if_neg hjt, if_neg hrb, if_pos hk]
      · rw [if_neg hk, if_neg hjt, if_neg hrb, if_neg hjt, if_neg hrb, if_neg hk]

/-- Witness for the C8 amended theorem at a concrete dot-free input. -/
theorem c8_amended_equiv_witness :
    ('.' ∉ "25rb".data) ∧
    (goContains "25rb".data leftoverPattern = false) ∧
    normalizeNominalPart0 "25rb" = normalizeNominal "25rb" :=
  ⟨by decide, by decide,
    c8_amended_equiv_on_dotfree "25rb" (by decide) (by decide)⟩

example : formatRupiah 1234567 = "1.234.567" := by decide
example : formatRupiah 0 = "0" := by decide
example : formatRupiah 50000 = "50.000" := by decide

theorem goIsDigit_digitChar (k : Nat) : goIsDigit (digitChar k) = true := by
  unfold digitChar
  split <;> decide

theorem natToDigitsGo_digits :
    ∀ (fuel n : Nat), ∀ c ∈ natToDigitsGo fuel n, goIsDigit c = true := by
  intro fuel
  induction fuel with
  | zero => intro n c hc; cases hc
  | succ fuel ih =>
    intro n c hc
    by_cases h : n < 10
    · simp only [natToDigitsGo, if_pos h, List.mem_singleton] at hc
      exact hc ▸ goIsDigit_digitChar n
    · simp only [natToDigitsGo, if_neg h, List.mem_append,
        List.mem_singleton] at hc
      rcases hc with hc | hc
      · exact ih _ _ hc
      · exact hc ▸ goIsDigit_digitChar _

theorem natToDigits_digits (n : Nat) :
    ∀ c ∈ natToDigits n, goIsDigit c = true :=
  natToDigitsGo_digits (n + 1) n

theorem natToDigits_ne_nil (n : Nat) : natToDigits n ≠ [] := by
  unfold natToDigits natToDigitsGo
  by_cases h : n < 10
  · rw [if_pos h]; simp
  · rw [if_neg h]; simp

theorem parseDigitsAux_append (xs : List Char) :
    ∀ (ys : List Char) (acc : Nat),
      parseDigitsAux acc (xs ++ ys) =
        match parseDigitsAux acc xs with
        | some m => parseDigitsAux m ys
        | none => none := by
  induction xs with
  | nil => intro ys acc; rfl
  | cons x rest ih =>
    intro ys acc
    show parseDigitsAux acc (x :: (rest ++ ys)) = _
    simp only [parseDigitsAux]
    by_cases hx : goIsDigit x = true
    · rw [if_pos hx, if_pos hx]
      exact ih ys _
    · simp only [if_neg hx]

theorem digitChar_toNat (k : Nat) (h : k < 10) :
    (digitChar k).toNat - 48 = k := by
  interval_cases k <;> decide

theorem parseDigitsAux_digitChar (k acc : Nat) (h : k < 10) :
    parseDigitsAux acc [digitChar k] = some (acc * 10 + k) := by
  simp only [parseDigitsAux]
  rw [if_pos (goIsDigit_digitChar k), digitChar_toNat k h]

theorem parse_natToDigitsGo :
    ∀ (fuel n acc : Nat), n < fuel →
      parseDigitsAux acc (natToDigitsGo fuel n) =
        some (acc * 10 ^ (natToDigitsGo fuel n).length + n) := by
  intro fuel
  induction fuel with
  | zero => intro n acc h; omega
  | succ fuel ih =>
    intro n acc h
    by_cases h10 : n < 10
    · simp only [natToDigitsGo, if_pos h10]
      rw [parseDigitsAux_digitChar n acc h10]
      simp [pow_succ]
    · simp only [natToDigitsGo, if_neg h10]
      have hdiv : n / 10 < fuel := by omega
      rw [parseDigitsAux_append, ih (n / 10) acc hdiv]
      show parseDigitsAux (acc * 10 ^ (natToDigitsGo fuel (n / 10)).length + n / 10)
        [digitChar (n % 10)] = _
      rw [parseDigitsAux_digitChar (n % 10) _ (by omega)]
      congr 1
      simp only [List.length_append, List.length_singleton, pow_succ,
        ← mul_assoc]
      generalize acc * 10 ^ (natToDigitsGo fuel (n / 10)).length = A
      omega

theorem goAtoi_natToDigits (n : Nat) (h : n ≤ 2 ^ 63 - 1) :
    goAtoi (natToDigits n) = some (n : Int) := by
  obtain ⟨c, rest, hcr⟩ : ∃ c rest, natToDigits n = c :: rest := by
    match hd : natToDigits n with
    | [] => exact absurd hd (natToDigits_ne_nil n)
    | c :: rest => exact ⟨c, rest, rfl⟩
  have hcdig : goIsDigit c = true :=
    natToDigits_digits n c (hcr ▸ List.mem_cons_self _ _)
  have hparse : parseDigitsAux 0 (natToDigits n) = some n := by
    have := parse_natToDigitsGo (n + 1) n 0 (Nat.lt_succ_self n)
    simpa [natToDigits] using this
  rw [hcr] at hparse ⊢
  have hplus : c ≠ '+' := fun hc => by rw [hc] at hcdig; cases hcdig
  have hminus : c ≠ '-' := fun hc => by rw [hc] at hcdig; cases hcdig
  have h9 : n ≤ 9223372036854775807 := by
    have h2 : (2 : Nat) ^ 63 - 1 = 9223372036854775807 := by norm_num
    omega
  simp only [goAtoi, if_neg hplus, if_neg hminus, goAtoiDigits]
  rw [hparse]
  simp [h9]

theorem formatRupiahAux_mem (L : Nat) :
    ∀ (s : List Char) (i : Nat), ∀ c ∈ formatRupiahAux L i s,
      c = '.' ∨ c ∈ s := by
  intro s
  induction s with
  | nil => intro i c hc; cases hc
  | cons x rest ih =>
    intro i c hc
    simp only [formatRupiahAux] at hc
    rcases List.mem_append.mp hc with hc | hc
    · by_cases hcond : ((L - i) % 3 == 0 && i != 0) = true
      · rw [if_pos hcond] at hc
        simp only [List.mem_cons, List.not_mem_nil, or_false] at hc
        rcases hc with rfl | rfl
        · exact Or.inl rfl
        · exact Or.inr (List.mem_cons_self _ _)
      · rw [if_neg hcond] at hc
        simp only [List.mem_cons, List.not_mem_nil, or_false] at hc
        exact Or.inr (hc ▸ List.mem_cons_self _ _)
    · rcases ih (i + 1) c hc with hh | hh
      · exact Or.inl hh
      · exact Or.inr (List.mem_cons_of_mem _ hh)

theorem formatRupiahAux_filter_dots (L : Nat) :
    ∀ (s : List Char) (i : Nat), '.' ∉ s →
      (formatRupiahAux L i s).filter (fun x => !(x == '.')) = s := by
  intro s
  induction s with
  | nil => intro i _; rfl
  | cons x rest ih =>
    intro i hdot
    have hx : x ≠ '.' := fun h => hdot (h ▸ List.mem_cons_self _ _)
    have hrest : '.' ∉ rest := fun h => hdot (List.mem_cons_of_mem _ h)
    simp only [formatRupiahAux, List.filter_append]
    rw [ih (i + 1) hrest]
    by_cases hcond : ((L - i) % 3 == 0 && i != 0) = true
    · rw [if_pos hcond]
      simp [hx]
    · rw [if_neg hcond]
      simp [hx]

/-- C10: feeding `formatRupiah(n)` (digits of a non-negative amount with a
dot inserted every three digits) back into `normalizeNominal` recovers
`n`, for every `n` representable as a non-negative Go `int`. -/
theorem c10_format_parse_roundtrip (n : Nat) (h : n ≤ 2 ^ 63 - 1) :
    normalizeNominal (formatRupiah (n : Int)) = (n : Int) := by
  have hfr : intToDigits (n : Int) = natToDigits n := by
    unfold intToDigits
    rw [if_neg (by simp), Int.toNat_ofNat]
  have hdigs := natToDigits_digits n
  have hfr_chars : ∀ c ∈ (formatRupiah (n : Int)).data,
      c = '.' ∨ goIsDigit c = true := by
    intro c hc
    simp only [formatRupiah, hfr] at hc
    rcases formatRupiahAux_mem _ _ _ c hc with hh | hh
    · exact Or.inl hh
    · exact Or.inr (hdigs c hh)
  have hnospace : ((formatRupiah (n : Int)).data).filter
      (fun x => !(x == ' ')) = (formatRupiah (n : Int)).data := by
    apply List.filter_eq_self.mpr
    intro c hc
    rcases hfr_chars c hc with hh | hh
    · subst hh; decide
    · simp only [Bool.not_eq_true', beq_eq_false_iff_ne, ne_eq]
      intro hsp
      rw [hsp] at hh
      cases hh
  have hlower : goToLower (formatRupiah (n : Int)).data =
      (formatRupiah (n : Int)).data := by
    unfold goToLower
    refine (List.map_congr_left ?_).trans (List.map_id _)
    intro c hc
    apply toLower_eq_self_of_not_upper
    rcases hfr_chars c hc with hh | hh
    · subst hh; decide
    · unfold goIsDigit at hh
      simp only [Bool.and_eq_true, decide_eq_true_eq] at hh
      omega
  have hdotfree : '.' ∉ natToDigits n := by
    intro hmem
    have := hdigs '.' hmem
    cases this
  have hstrip : goReplaceAll (formatRupiah (n : Int)).data ['.'] [] =
      natToDigits n := by
    rw [goReplaceAll_singleton]
    show ((formatRupiah (n : Int)).data).filter (fun x => !(x == '.')) = _
    simp only [formatRupiah, hfr]
    exact formatRupiahAux_filter_dots _ _ _ hdotfree
  simp only [normalizeNominal]
  rw [goReplaceAll_singleton (formatRupiah (n : Int)).data ' ',
    hnospace, hlower, hstrip]
  have hnc : ∀ (c : Char) (tl : List Char), goIsDigit c = false →
      goContains (natToDigits n) (c :: tl) = true → False := by
    intro c tl hcf hcont
    have := hdigs c (goContains_head_mem hcont)
    rw [this] at hcf
    cases hcf
  rw [if_neg (fun hh => hnc 'j' ['t'] (by decide) hh),
    if_neg (fun hh => hnc 'r' ['b'] (by decide) hh),
    if_neg (fun hh => hnc 'k' [] (by decide) hh)]
  rw [goAtoi_natToDigits n h]

/-- Witness for the C10 round-trip theorem at a concrete amount. -/
theorem c10_format_parse_roundtrip_witness :
    ((1234567 : Nat) ≤ 2 ^ 63 - 1) ∧
    normalizeNominal (formatRupiah ((1234567 : Nat) : Int)) =
      ((1234567 : Nat) : Int) :=
  ⟨by decide, c10_format_parse_roundtrip 1234567 (by decide)⟩

example : formatDateDDMMYYYY (daysFromCivil 2024 1 7 * 86400 + 43200) =
    "07-01-2024" := by decide
example : parseDateDDMMYYYY "07-01-2024" = some (daysFromCivil 2024 1 7) := by
  decide
example : weekdayOf (daysFromCivil 2024 1 7 * 86400) = 0 := by decide
example : formatDateISO (daysFromCivil 2025 12 31 * 86400 + 100) =
    "2025-12-31" := by decide

theorem applyClearGo_length (r1 r2 : Nat) :
    ∀ (s : List (List Cell)) (i : Nat),
      (applyClearGo r1 r2 i s).length = s.length := by
  intro s
  induction s with
  | nil => intro i; rfl
  | cons row rest ih =>
    intro i
    simp only [applyClearGo, List.length_cons, ih]

theorem applyClearGo_getD (r1 r2 : Nat) :
    ∀ (s : List (List Cell)) (i j : Nat), j < s.length →
      (applyClearGo r1 r2 i s).getD j [] =
        if r1 ≤ i + j + 1 ∧ i + j + 1 ≤ r2 then [] else s.getD j [] := by
  intro s
  induction s with
  | nil => intro i j h; cases h
  | cons row rest ih =>
    intro i j h
    match j with
    | 0 => simp [applyClearGo, List.getD]
    | j + 1 =>
      have hj : j < rest.length := by simpa using Nat.lt_of_succ_lt_succ h
      show (applyClearGo r1 r2 (i + 1) rest).getD j [] = _
      rw [ih (i + 1) j hj]
      have harith : i + 1 + j + 1 = i + (j + 1) + 1 := by omega
      rw [harith]
      rfl

/-- C7: `removeLastEntry` on an empty ledger (fewer than two rows in the
`A:A` read, i.e. no data rows below the header) fails with the
empty-ledger error and issues no clear request; on a non-empty ledger it
issues exactly one clear request covering only the highest-position row,
whose application empties that row and leaves every other row unchanged. -/
theorem c7_remove_last_empty_guard (values : List (List Cell)) :
    (values.length < 2 →
      removeLastEntry (some values) = .error "no entries to remove") ∧
    (2 ≤ values.length →
      removeLastEntry (some values) = .ok (values.length, values.length) ∧
      (applyClear values (values.length, values.length)).length =
        values.length ∧
      (∀ i, i + 1 < values.length →
        (applyClear values (values.length, values.length)).getD i [] =
          values.getD i []) ∧
      (applyClear values (values.length, values.length)).getD
        (values.length - 1) [] = []) := by
  constructor
  · intro h
    simp only [removeLastEntry]
    rw [if_pos h]
  · intro h
    refine ⟨?_, ?_, ?_, ?_⟩
    · simp only [removeLastEntry]
      rw [if_neg (by omega)]
    · exact applyClearGo_length _ _ values 0
    · intro i hi
      unfold applyClear
      rw [applyClearGo_getD _ _ values 0 i (by omega)]
      rw [if_neg (by omega)]
    · unfold applyClear
      rw [applyClearGo_getD _ _ values 0 (values.length - 1) (by omega)]
      rw [if_pos (by omega)]

/-- Witness for C7 at concrete ledgers: a header-only sheet errors, a
two-row sheet gets exactly its second row cleared. -/
theorem c7_remove_last_empty_guard_witness :
    removeLastEntry (some [[Cell.str "No"]]) =
      .error "no entries to remove" ∧
    removeLastEntry (some [[Cell.str "No"], [Cell.num 1]]) = .ok (2, 2) ∧
    (applyClear [[Cell.str "No"], [Cell.num 1]] (2, 2)).getD 0 [] =
      [Cell.str "No"] ∧
    (applyClear [[Cell.str "No"], [Cell.num 1]] (2, 2)).getD 1 [] = [] := by
  refine ⟨(c7_remove_last_empty_guard [[Cell.str "No"]]).1 (by decide),
    ((c7_remove_last_empty_guard [[Cell.str "No"], [Cell.num 1]]).2
      (by decide)).1,
    ?_, ?_⟩
  · have := (((c7_remove_last_empty_guard
      [[Cell.str "No"], [Cell.num 1]]).2 (by decide)).2.2.1) 0 (by decide)
    simpa using this
  · have := (((c7_remove_last_empty_guard
      [[Cell.str "No"], [Cell.num 1]]).2 (by decide)).2.2.2)
    simpa using this

/-- C9: a failed backend read of the amount column makes `getSummary`
return 0, the same total as an empty ledger (or a header-only ledger whose
header cell is non-numeric), so the `/summary` reply on a backend failure
is `"... Rp. 0"` and is byte-identical to the reply for a ledger with no
entries; no failure message is produced. -/
theorem c9_summary_error_reads_as_zero :
    getSummary Option.none = 0 ∧
    getSummary (some []) = 0 ∧
    getSummary (some [[Cell.str "Nominal"]]) = 0 ∧
    summaryReply Option.none = "📊 Total pengeluaran saat ini: Rp. 0" ∧
    summaryReply Option.none = summaryReply (some []) ∧
    summaryReply Option.none = summaryReply (some [[Cell.str "Nominal"]]) := by
  refine ⟨rfl, rfl, by decide, by decide, by decide, by decide⟩

/-! ### The weekly window defect (C3) -/

/-- The lower bound of the weekly filter is strict against an instant that
carries `now`'s time of day: a row dated exactly the week-start civil day
(whose parsed instant is that day's midnight) is NEVER inside the window,
for every evaluation instant `now`. -/
theorem weekly_window_always_excludes_week_start_day (t : Int) :
    inWeeklyWindow t ((t / 86400 - weekdayOf t) * 86400) = false := by
  have h : ¬(weekStartOf t < (t / 86400 - weekdayOf t) * 86400) := by
    unfold weekStartOf weekdayOf
    omega
  unfold inWeeklyWindow
  simp [h]

/-- C2: on any tick of the fixed one-minute schedule, a chat whose
preference is Daily is dispatched exactly when the hour of day is 20 and
at least 24 hours have elapsed since `lastReminder`; a (successful)
dispatch rewrites that chat's preference with `lastReminder = now` and
persists the updated preference row. -/
theorem c2_daily_reminder_dispatch
    (start : Int) (k : Nat) (prefs ps : List (Int × UserPreference))
    (p : UserPreference) (summaryText : String)
    (hp : p.reminderType = ReminderType.daily)
    (hlp : assocLookup ps p.chatID = some p) :
    ((p.chatID, p) ∈ schedulerTick (tickTime start k) prefs ↔
      (p.chatID, p) ∈ prefs ∧ hourOf (tickTime start k) = 20 ∧
        24 * 3600 ≤ tickTime start k - p.lastReminder) ∧
    (sendReminder (tickTime start k) (some summaryText) true ps p.chatID
        p.reminderType).prefs =
      assocInsert ps p.chatID
        { p with lastReminder := tickTime start k } ∧
    (sendReminder (tickTime start k) (some summaryText) true ps p.chatID
        p.reminderType).savedRow =
      some [Cell.num p.chatID, Cell.str "daily",
        Cell.str (formatDateISO (tickTime start k))] := by
  refine ⟨?_, ?_, ?_⟩
  · simp only [schedulerTick, List.mem_filter]
    simp only [shouldSendReminder, hp, Bool.and_eq_true, beq_iff_eq,
      decide_eq_true_eq]
    constructor
    · rintro ⟨hm, -, h2, h3⟩
      exact ⟨hm, h2, h3⟩
    · rintro ⟨hm, h2, h3⟩
      refine ⟨hm, ?_, h2, h3⟩
      decide
  · simp only [sendReminder, hlp, Option.getD_some, if_true]
  · simp only [sendReminder, hlp, Option.getD_some, if_true]
    simp [saveUserPreference, hp, rtString]

/-- Witness for C2: chat 7 with a Daily preference last reminded at the
epoch is dispatched on the tick at 1970-01-02 20:00:00, and the dispatch
records the tick instant. -/
theorem c2_daily_reminder_dispatch_witness :
    (7, (⟨7, ReminderType.daily, 0⟩ : UserPreference)) ∈
      schedulerTick (tickTime 158340 1)
        [(7, ⟨7, ReminderType.daily, 0⟩)] ∧
    (sendReminder (tickTime 158340 1) (some "S") true
        [(7, ⟨7, ReminderType.daily, 0⟩)] 7 ReminderType.daily).savedRow =
      some [Cell.num 7, Cell.str "daily",
        Cell.str (formatDateISO (tickTime 158340 1))] := by
  have h := c2_daily_reminder_dispatch 158340 1
    [(7, ⟨7, ReminderType.daily, 0⟩)] [(7, ⟨7, ReminderType.daily, 0⟩)]
    ⟨7, ReminderType.daily, 0⟩ "S" rfl (by decide)
  exact ⟨h.1.mpr ⟨by decide, by decide, by decide⟩, h.2.2⟩

/-- The `switch` case guarding the `/edit` branch (`src/main.go` line
641) is `text == "/edit " + text`, which no string satisfies. -/
theorem edit_guard_never_matches (t : String) : ¬(t = "/edit " ++ t) := by
  intro h
  have hl := congrArg String.length h
  rw [String.length_append] at hl
  have h6 : ("/edit " : String).length = 6 := by decide
  omega

/-- C1 (code defect, concrete run): with an Idle chat and a ledger that
does contain row 2, the command `/edit 2` falls through every `switch`
case — the `/edit` case's guard is the unsatisfiable
`text == "/edit " + text` — and reaches the default: the router replies
"unrecognized command", reads no row, creates no edit session, and leaves
the ledger unchanged. -/
theorem c1_edit_command_unrecognized :
    handleUpdate 0
      ⟨[[Cell.str "No", Cell.str "Tanggal", Cell.str "Nominal",
         Cell.str "Kategori", Cell.str "Keterangan"],
        [Cell.num 1, Cell.str "05-01-2024", Cell.num 10000,
         Cell.str "Makanan", Cell.str "Sarapan"],
        [Cell.num 2, Cell.str "06-01-2024", Cell.num 20000,
         Cell.str "Minuman", Cell.str "Kopi"]], []⟩
      ⟨some ⟨42, "/edit 2"⟩, Option.none⟩ =
      ⟨[[Cell.str "No", Cell.str "Tanggal", Cell.str "Nominal",
         Cell.str "Kategori", Cell.str "Keterangan"],
        [Cell.num 1, Cell.str "05-01-2024", Cell.num 10000,
         Cell.str "Makanan", Cell.str "Sarapan"],
        [Cell.num 2, Cell.str "06-01-2024", Cell.num 20000,
         Cell.str "Minuman", Cell.str "Kopi"]], [],
       [unknownCommandReply]⟩ := by
  decide

/-- C5 (code defect): a callback-query update carries no message, and
`handleUpdate` — the only handler ever invoked by the polling and webhook
loops — returns immediately on such updates.  Selecting a reminder period
therefore changes nothing and sends nothing: `handleCallbackQuery`, which
would write the preference, is never called. -/
theorem c5_callback_query_ignored (now : Int) (st : RouterState)
    (cb : CallbackQ) :
    handleUpdate now st ⟨Option.none, some cb⟩ =
      ⟨st.sheet, st.editingState, []⟩ := rfl

/-- What the unreachable `handleCallbackQuery` would do for the
`reminder_daily` token: write the preference with `lastReminder = now`
and reply with the daily-specific confirmation. -/
theorem handleCallbackQuery_would_write_preference (now : Int)
    (prefs : List (Int × UserPreference)) (chatId : Int) :
    handleCallbackQuery now true prefs ⟨chatId, "reminder_daily"⟩ =
      ⟨assocInsert prefs chatId ⟨chatId, ReminderType.daily, now⟩,
        some (saveUserPreference ⟨chatId, ReminderType.daily, now⟩),
        [confirmationMessage ReminderType.daily]⟩ := rfl

/-- C6: a chat with an active edit session targeting row `n` that sends a
message which does not split into exactly three comma-separated fields
gets the format-reminder reply, keeps its edit session (still targeting
`n`, since the state is returned unchanged), and the ledger is not
touched. -/
theorem c6_malformed_edit_input_keeps_session (now : Int)
    (st : RouterState) (chatId n : Int) (text : String)
    (hedit : assocLookup st.editingState chatId = some n)
    (hbad : (goSplit ',' text.data).length ≠ 3) :
    handleUpdate now st ⟨some ⟨chatId, text⟩, Option.none⟩ =
      ⟨st.sheet, st.editingState, [editFormatReminder]⟩ := by
  simp only [handleUpdate, hedit]
  rw [if_neg hbad]

/-- Witness for C6: chat 42 is editing row 2 and sends `"hello"`. -/
theorem c6_malformed_edit_input_keeps_session_witness :
    handleUpdate 0 ⟨[[Cell.str "No"]], [(42, 2)]⟩
      ⟨some ⟨42, "hello"⟩, Option.none⟩ =
      ⟨[[Cell.str "No"]], [(42, 2)], [editFormatReminder]⟩ :=
  c6_malformed_edit_input_keeps_session 0 ⟨[[Cell.str "No"]], [(42, 2)]⟩
    42 2 "hello" (by decide) (by decide)

/-- C3 (code defect, concrete run): on Sunday 2024-01-07 at 12:00, the
week starts that same day, yet `getWeeklySummary` reports "no expenses
this week" for a ledger whose only entry is dated 07-01-2024 — the row
dated exactly `weekStart` is excluded, contradicting the inclusive lower
endpoint.  The conjuncts pin the scenario: the chosen `now` is a Sunday
(weekday 0, so `weekStart = now`), and the row's date cell parses to
exactly the week-start day. -/
theorem c3_week_start_row_excluded :
    weekdayOf (daysFromCivil 2024 1 7 * 86400 + 43200) = 0 ∧
    parseDateDDMMYYYY "07-01-2024" = some (daysFromCivil 2024 1 7) ∧
    getWeeklySummary (daysFromCivil 2024 1 7 * 86400 + 43200)
      (some [[Cell.str "No", Cell.str "Tanggal", Cell.str "Nominal",
              Cell.str "Kategori", Cell.str "Keterangan"],
             [Cell.num 1, Cell.str "07-01-2024", Cell.num 50000,
              Cell.str "Makanan", Cell.str "Nasi Goreng"]]) =
      .ok "Tidak ada pengeluaran minggu ini" := by
  refine ⟨by decide, by decide, rfl⟩

end KeuBot
